import Mathlib

/-!
Verification development for the `node-cpp-skel` native binding.

The repository exposes one asynchronous standalone function, `helloAsync`
(src/standalone_async/hello_async.cpp), built on the `Napi::AsyncWorker`
pattern: argument validation on the invoking thread, an `Execute` phase on a
worker thread that stores either a result or an error into the worker object,
and a delivery phase (`OnOK`, or the default `OnError`) that invokes the
user-supplied callback exactly once with the error-first convention.

The definitions below are a shallow embedding of that source file.  External
collaborators that are not part of the available sources
(`detail::do_expensive_work` from src/cpu_intensive_task.hpp,
`utils::CallbackError` from src/module_utils.hpp, and the scheduling contract
of `Napi::AsyncWorker`) are modelled from the specification and carry a doc
comment saying so.
-/

set_option autoImplicit false

namespace NodeCppSkel

/-- Host-runtime values crossing the N-API boundary, restricted to the shapes
`helloAsync` inspects: `undefined`, `null`, booleans, strings, plain objects
(a field list), and functions (the callback). -/
inductive JSValue where
  | undefined
  | null
  | boolean (b : Bool)
  | str (s : String)
  | object (fields : List (String × JSValue))
  | function

/-- Embeds `Napi::Value::IsFunction`. -/
def JSValue.isFunction : JSValue → Bool
  | .function => true
  | _ => false

/-- Embeds `Napi::Value::IsObject` for the value shapes in this model. -/
def JSValue.isObject : JSValue → Bool
  | .object _ => true
  | _ => false

/-- Embeds `Napi::Value::IsBoolean`. -/
def JSValue.isBoolean : JSValue → Bool
  | .boolean _ => true
  | _ => false

/-- Embeds `Napi::Value::As<Napi::Boolean>().Value()`; in the source it is
only applied to values already checked with `IsBoolean`. -/
def JSValue.asBoolean : JSValue → Bool
  | .boolean b => b
  | _ => false

/-- The field list of an object value; other values expose no fields. -/
def JSValue.fields : JSValue → List (String × JSValue)
  | .object fs => fs
  | _ => []

/-- Embeds `Napi::Object::Has(key)` on the embedded field list. -/
def objHas (fields : List (String × JSValue)) (key : String) : Bool :=
  fields.any (fun f => f.1 == key)

/-- Embeds `Napi::Object::Get(key)`: the first binding of `key`, or
`undefined` when the key is missing. -/
def objGet (fields : List (String × JSValue)) (key : String) : JSValue :=
  match fields.find? (fun f => f.1 == key) with
  | some f => f.2
  | none => .undefined

/-- Modelled from the spec: `detail::do_expensive_work` is declared in
src/cpu_intensive_task.hpp, which is not among the available sources.  Per the
spec it is a pure synchronous formatting function: given a subject word and an
emphasize flag it produces a phrase indicating that asynchronous processing
occurred, concatenated with a greeting of the subject, and suffixed with
multiple exclamation marks exactly when the flag is set.  The literal wording
follows the example in the source documentation comment. -/
def do_expensive_work (subject : String) (louder : Bool) : String :=
  "...threads are busy async bees...hello " ++ subject ++
    (if louder then "!!!!" else "")

/-- State of one `AsyncHelloWorker` object (src/standalone_async/hello_async.cpp).
`result_` models `std::unique_ptr<std::string>`: `none` is a null pointer,
`some s` a pointer to the string `s`.  `error_` models the error message
stored by `Napi::AsyncWorker::SetError` (`none` when `SetError` was never
called). -/
structure AsyncHelloWorker where
  louder_ : Bool
  buffer_ : Bool
  result_ : Option String
  error_ : Option String

/-- The constructor together with the member initializer
`result_ = std::make_unique<std::string>()`: the result pointer is non-null
from construction and points at an empty string. -/
def mkAsyncHelloWorker (louder buffer : Bool) : AsyncHelloWorker :=
  { louder_ := louder, buffer_ := buffer, result_ := some "", error_ := none }

/-- Possible outcomes of evaluating the C++ expression inside the try block of
`Execute` (the worker-thread body).  C++ permits a `throw` of any type, so
besides returning a string the body may throw a value derived from
`std::exception` or a value that is not. -/
inductive WorkOutcome where
  | value (s : String)
  | raiseStd (what : String)
  | raiseOther
  deriving DecidableEq

/-- How a call of `Execute` terminates: normally with an updated worker
state, or by an exception propagating out of `Execute` into the thread-pool
code (which the source comment calls disastrous). -/
inductive ExecuteResult where
  | normal (w : AsyncHelloWorker)
  | escaped

/-- Embeds `AsyncHelloWorker::Execute`, parametrised by the outcome of its
try-block body: a returned string is assigned to `result_`; an exception
derived from `std::exception` is caught by the clause
`catch (std::exception const& e)` and `SetError(e.what())` records it; any
other thrown value matches no catch clause and propagates out. -/
def Execute (w : AsyncHelloWorker) (work : WorkOutcome) : ExecuteResult :=
  match work with
  | .value s => .normal { w with result_ := some s }
  | .raiseStd e => .normal { w with error_ := some e }
  | .raiseOther => .escaped

/-- The concrete try-block body of this worker,
`result_ = detail::do_expensive_work("world", louder_)`, which (being pure)
returns a string. -/
def helloWork (louder : Bool) : WorkOutcome :=
  .value (do_expensive_work "world" louder)

/-- A value delivered to the callback in the result slot: a text value
(`Napi::String::New`) or a byte buffer (`Napi::Buffer<char>::Copy`). -/
inductive ResultValue where
  | text (s : String)
  | bytes (data : List UInt8)

/-- The bytes copied by `Napi::Buffer<char>::Copy(env, s.data(), s.size())`:
the byte content of the C++ string (the same byte list that
`String.toUTF8` packs into a `ByteArray`). -/
def stringBytes (s : String) : List UInt8 :=
  s.data.flatMap String.utf8EncodeChar

/-- Modelled from the spec: host-side decoding of a delivered byte buffer
back into text (an external capability).  Bytes below 0x80 decode one byte
per character, as UTF-8 does on the ASCII range this program emits; other
byte sequences are not decoded by this model. -/
def decodeBytes (l : List UInt8) : Option String :=
  if l.all (fun b => b < 0x80) then
    some (String.mk (l.map (fun b => Char.ofNat b.toNat)))
  else
    none

/-- One invocation of the user callback: the error-slot argument (`none`
models the host null) and the result-slot argument (`none` models an absent
or null result). -/
structure CallbackInvocation where
  err : Option String
  res : Option ResultValue

/-- Embeds `AsyncHelloWorker::OnOK`: with `buffer_` set the callback gets
`(null, Buffer.Copy(*result_))`, otherwise `(null, String(*result_))`.  The
dereference of the `result_` pointer is modelled with `Option.getD`; the
pointer is non-null throughout the object lifetime (see
`result_pointer_nonnull`). -/
def OnOK (w : AsyncHelloWorker) : CallbackInvocation :=
  if w.buffer_ then
    { err := none, res := some (.bytes (stringBytes (w.result_.getD ""))) }
  else
    { err := none, res := some (.text (w.result_.getD "")) }

/-- Modelled from the spec: the default `Napi::AsyncWorker::OnError` (an
external collaborator) invokes the callback with the stored error in the
error slot and nothing in the result slot. -/
def OnError (e : String) : CallbackInvocation :=
  { err := some e, res := none }

/-- What becomes of a queued task: its callback is invoked with some
arguments, or an exception escaped the worker thread and the process dies. -/
inductive TaskOutcome where
  | callbackCalled (inv : CallbackInvocation)
  | processCrash

/-- Modelled from the spec: the host scheduler contract for a queued
`Napi::AsyncWorker`.  `Execute` runs on a worker thread; afterwards, exactly
one of the delivery hooks runs on the runtime thread: `OnError` when
`SetError` recorded an error, `OnOK` otherwise.  An exception escaping
`Execute` is a fatal process condition and no callback runs. -/
def runTask (w : AsyncHelloWorker) (work : WorkOutcome) : TaskOutcome :=
  match Execute w work with
  | .escaped => .processCrash
  | .normal w2 =>
    match w2.error_ with
    | some e => .callbackCalled (OnError e)
    | none => .callbackCalled (OnOK w2)

/-- The list of callback invocations a task produces (empty on a process
crash, one element otherwise). -/
def runTaskCalls (w : AsyncHelloWorker) (work : WorkOutcome) : List CallbackInvocation :=
  match runTask w work with
  | .callbackCalled inv => [inv]
  | .processCrash => []

/-- Observable outcome of one call of the binding function `helloAsync`:
`thrown msg` models `Napi::TypeError::...ThrowAsJavaScriptException()`
followed by returning `info.Env().Null()`; `callbackError msg` models
returning `utils::CallbackError(msg, info)`; `queued w` models constructing
the worker `w`, calling `worker->Queue()` and returning
`info.Env().Undefined()`. -/
inductive HelloAsyncOutcome where
  | thrown (msg : String)
  | callbackError (msg : String)
  | queued (w : AsyncHelloWorker)

/-- Embeds `standalone_async::helloAsync` (src/standalone_async/hello_async.cpp):
the callback argument is checked first (a non-function throws a TypeError),
then the options argument must be an object, then each recognized field
(`louder`, then `buffer`) is read if present and must be a boolean; the
local flags start `false` and a present boolean field overwrites the
corresponding flag; finally the worker is constructed and queued. -/
def helloAsync (arg0 arg1 : JSValue) : HelloAsyncOutcome :=
  if arg1.isFunction = false then
    .thrown "second arg \x27callback\x27 must be a function"
  else if arg0.isObject = false then
    .callbackError "first arg \x27options\x27 must be an object"
  else
    let options := arg0.fields
    let louderStep : Except String Bool :=
      if objHas options "louder" then
        let louder_val := objGet options "louder"
        if louder_val.isBoolean = false then
          .error "option \x27louder\x27 must be a boolean"
        else
          .ok louder_val.asBoolean
      else
        .ok false
    match louderStep with
    | .error msg => .callbackError msg
    | .ok louder =>
      let bufferStep : Except String Bool :=
        if objHas options "buffer" then
          let buffer_val := objGet options "buffer"
          if buffer_val.isBoolean = false then
            .error "option \x27buffer\x27 must be a boolean"
          else
            .ok buffer_val.asBoolean
        else
          .ok false
      match bufferStep with
      | .error msg => .callbackError msg
      | .ok buffer => .queued (mkAsyncHelloWorker louder buffer)

/-- Modelled from the spec: `utils::CallbackError` (src/module_utils.hpp, not
among the available sources) invokes the callback
synchronously-or-immediately with a non-null error and no result. -/
def CallbackError (msg : String) : CallbackInvocation :=
  { err := some msg, res := none }

/-- All callback invocations eventually produced by one call of `helloAsync`,
given the work outcome `work` of the body in case a task gets queued:
a thrown TypeError produces none, `utils::CallbackError` produces exactly
one synchronous invocation, and a queued task produces those of its run. -/
def helloAsyncCalls (arg0 arg1 : JSValue) (work : WorkOutcome) : List CallbackInvocation :=
  match helloAsync arg0 arg1 with
  | .thrown _ => []
  | .callbackError msg => [CallbackError msg]
  | .queued w => runTaskCalls w work

/-- A malformed invocation in the sense of the validation layer: the callback
is not invocable, the options argument is not an object, or a recognized
option field is present but not boolean-typed. -/
def malformedInvocation (arg0 arg1 : JSValue) : Prop :=
  arg1.isFunction = false ∨ arg0.isObject = false ∨
    (objHas arg0.fields "louder" = true ∧ (objGet arg0.fields "louder").isBoolean = false) ∨
    (objHas arg0.fields "buffer" = true ∧ (objGet arg0.fields "buffer").isBoolean = false)

/-- The `result_` pointer of a worker is non-null whenever `Execute` returns
normally: it is initialized at construction and only ever reassigned to a
freshly allocated string. -/
theorem result_pointer_nonnull (louder buffer : Bool) (work : WorkOutcome)
    (w2 : AsyncHelloWorker)
    (h : Execute (mkAsyncHelloWorker louder buffer) work = .normal w2) :
    w2.result_ ≠ none := by
  cases work with
  | value s =>
    cases h
    simp [mkAsyncHelloWorker]
  | raiseStd e =>
    cases h
    simp [mkAsyncHelloWorker]
  | raiseOther =>
    cases h

theorem objHas_cons_ne (k key : String) (v : JSValue)
    (fields : List (String × JSValue)) (h : k ≠ key) :
    objHas ((k, v) :: fields) key = objHas fields key := by
  simp [objHas, beq_false_of_ne h]

theorem objGet_cons_ne (k key : String) (v : JSValue)
    (fields : List (String × JSValue)) (h : k ≠ key) :
    objGet ((k, v) :: fields) key = objGet fields key := by
  simp [objGet, List.find?, beq_false_of_ne h]

/-- Claim C1: for every boolean combination of (emphasize, asBytes) and every
modelled work outcome (a returned value or a caught std exception), the
completion callback is invoked exactly once, with exactly one of the error
slot and the result slot populated: on failure a populated error and no
result, on success no error and a populated result. -/
theorem callback_exactly_once_and_exclusive (louder buffer : Bool)
    (work : WorkOutcome) (h : work ≠ .raiseOther) :
    (runTaskCalls (mkAsyncHelloWorker louder buffer) work).length = 1 ∧
    (∀ inv ∈ runTaskCalls (mkAsyncHelloWorker louder buffer) work,
      (inv.err = none ∧ inv.res ≠ none) ∨ (inv.err ≠ none ∧ inv.res = none)) ∧
    (∀ e, work = .raiseStd e →
      runTaskCalls (mkAsyncHelloWorker louder buffer) work =
        [{ err := some e, res := none }]) ∧
    (∀ s, work = .value s → ∃ rv,
      runTaskCalls (mkAsyncHelloWorker louder buffer) work =
        [{ err := none, res := some rv }]) := by
  cases work with
  | value s =>
    cases buffer <;>
      simp [runTaskCalls, runTask, Execute, OnOK, OnError, mkAsyncHelloWorker]
  | raiseStd e =>
    simp [runTaskCalls, runTask, Execute, OnOK, OnError, mkAsyncHelloWorker]
  | raiseOther =>
    exact absurd rfl h

theorem callback_exactly_once_and_exclusive_witness :
    (runTaskCalls (mkAsyncHelloWorker false false) (.value "hi")).length = 1 :=
  (callback_exactly_once_and_exclusive false false (.value "hi") (by decide)).1

/-- Claim C2, counterexample: the catch clause of `Execute` is
`catch (std::exception const& e)`, not `catch (...)`; a thrown value that is
not derived from `std::exception` matches no clause and escapes `Execute`,
so on that input the task crashes the process instead of recording an
error. -/
theorem execute_escape_counterexample :
    Execute (mkAsyncHelloWorker false false) .raiseOther = .escaped ∧
    runTask (mkAsyncHelloWorker false false) .raiseOther = .processCrash :=
  ⟨rfl, rfl⟩

/-- Claim C2, amended: every failure of the worker-thread body that is
derived from `std::exception` is caught inside `Execute` and converted into
the error field of the task, and the concrete body (a pure formatting call)
never lets anything escape `Execute`; only a thrown value not derived from
`std::exception` would escape. -/
theorem execute_catches_std_exceptions (louder buffer : Bool) (e : String) :
    Execute (mkAsyncHelloWorker louder buffer) (.raiseStd e) =
      .normal { louder_ := louder, buffer_ := buffer,
                result_ := some "", error_ := some e } ∧
    Execute (mkAsyncHelloWorker louder buffer) (helloWork louder) ≠ .escaped := by
  refine ⟨rfl, ?_⟩
  simp [Execute, helloWork]

/-- Claim C3, counterexample: the member initializer
`result_ = std::make_unique<std::string>()` makes the result pointer of a
freshly constructed task non-null (it owns an empty string), so the result
field is not absent from construction as claimed. -/
theorem result_initialized_counterexample :
    (mkAsyncHelloWorker false false).result_ = some "" ∧
    (mkAsyncHelloWorker false false).result_ ≠ none := by
  refine ⟨rfl, ?_⟩
  simp [mkAsyncHelloWorker]

/-- Claim C3, amended: from construction the result field holds an owned
empty string (it is never null); it comes to hold the computed result
exactly when `Execute` completes successfully, and on failure it still holds
the empty string while the error field records the failure. -/
theorem result_empty_until_success (louder buffer : Bool) (s e : String) :
    (mkAsyncHelloWorker louder buffer).result_ = some "" ∧
    Execute (mkAsyncHelloWorker louder buffer) (.value s) =
      .normal { louder_ := louder, buffer_ := buffer,
                result_ := some s, error_ := none } ∧
    Execute (mkAsyncHelloWorker louder buffer) (.raiseStd e) =
      .normal { louder_ := louder, buffer_ := buffer,
                result_ := some "", error_ := some e } :=
  ⟨rfl, rfl, rfl⟩

/-- Claim C4, counterexample: with a valid callback and a non-object options
argument, `helloAsync` does not throw to the caller; it surfaces the
validation error by invoking the callback (via `utils::CallbackError`) with
a populated error slot, so not every validation error is surfaced by
throwing and validation errors do reach the callback path. -/
theorem validation_not_thrown_counterexample :
    helloAsync .null .function =
      .callbackError "first arg \x27options\x27 must be an object" ∧
    helloAsyncCalls .null .function (.value "") =
      [{ err := some "first arg \x27options\x27 must be an object",
         res := none }] :=
  ⟨rfl, rfl⟩

/-- Claim C4, amended: for every malformed invocation no task is constructed
or queued; an invocation whose callback argument is not a function is
rejected with a synchronous thrown TypeError, while the remaining validation
errors (non-object options, recognized field present but not boolean) are
surfaced by synchronously invoking the callback with an error. -/
theorem validation_before_task_construction (arg0 arg1 : JSValue)
    (h : malformedInvocation arg0 arg1) :
    (∀ w, helloAsync arg0 arg1 ≠ .queued w) ∧
    (arg1.isFunction = false →
      helloAsync arg0 arg1 =
        .thrown "second arg \x27callback\x27 must be a function") ∧
    (arg1.isFunction = true →
      ∃ m, helloAsync arg0 arg1 = .callbackError m) := by
  by_cases hf : arg1.isFunction = true
  case neg =>
    have hf0 : arg1.isFunction = false := by
      rcases Bool.eq_false_or_eq_true arg1.isFunction with h1 | h1
      · exact absurd h1 hf
      · exact h1
    refine ⟨fun w => ?_, fun _ => ?_, fun ht => absurd ht hf⟩
    · simp [helloAsync, hf0]
    · simp [helloAsync, hf0]
  case pos =>
    by_cases ho : arg0.isObject = true
    case neg =>
      have ho0 : arg0.isObject = false := by
        rcases Bool.eq_false_or_eq_true arg0.isObject with h1 | h1
        · exact absurd h1 ho
        · exact h1
      refine ⟨fun w => ?_, fun hcon => ?_, fun _ =>
        ⟨"first arg \x27options\x27 must be an object", ?_⟩⟩
      · simp [helloAsync, hf, ho0]
      · rw [hf] at hcon
        exact Bool.noConfusion hcon
      · simp [helloAsync, hf, ho0]
    case pos =>
      rcases h with h | h | h | h
      · rw [hf] at h
        exact Bool.noConfusion h
      · rw [ho] at h
        exact Bool.noConfusion h
      · refine ⟨fun w => ?_, fun hcon => ?_, fun _ =>
          ⟨"option \x27louder\x27 must be a boolean", ?_⟩⟩
        · simp [helloAsync, hf, ho, h.1, h.2]
        · rw [hf] at hcon
          exact Bool.noConfusion hcon
        · simp [helloAsync, hf, ho, h.1, h.2]
      · by_cases hlh : objHas arg0.fields "louder" = true
        · by_cases hlb : (objGet arg0.fields "louder").isBoolean = true
          · refine ⟨fun w => ?_, fun hcon => ?_, fun _ =>
              ⟨"option \x27buffer\x27 must be a boolean", ?_⟩⟩
            · simp [helloAsync, hf, ho, hlh, hlb, h.1, h.2]
            · rw [hf] at hcon
              exact Bool.noConfusion hcon
            · simp [helloAsync, hf, ho, hlh, hlb, h.1, h.2]
          · have hlb0 : (objGet arg0.fields "louder").isBoolean = false := by
              rcases Bool.eq_false_or_eq_true (objGet arg0.fields "louder").isBoolean with h1 | h1
              · exact absurd h1 hlb
              · exact h1
            refine ⟨fun w => ?_, fun hcon => ?_, fun _ =>
              ⟨"option \x27louder\x27 must be a boolean", ?_⟩⟩
            · simp [helloAsync, hf, ho, hlh, hlb0]
            · rw [hf] at hcon
              exact Bool.noConfusion hcon
            · simp [helloAsync, hf, ho, hlh, hlb0]
        · have hlh0 : objHas arg0.fields "louder" = false := by
            rcases Bool.eq_false_or_eq_true (objHas arg0.fields "louder") with h1 | h1
            · exact absurd h1 hlh
            · exact h1
          refine ⟨fun w => ?_, fun hcon => ?_, fun _ =>
            ⟨"option \x27buffer\x27 must be a boolean", ?_⟩⟩
          · simp [helloAsync, hf, ho, hlh0, h.1, h.2]
          · rw [hf] at hcon
            exact Bool.noConfusion hcon
          · simp [helloAsync, hf, ho, hlh0, h.1, h.2]

theorem validation_before_task_construction_witness :
    helloAsync .null .function ≠ .queued (mkAsyncHelloWorker false false) :=
  (validation_before_task_construction .null .function
    (Or.inr (Or.inl rfl))).1 (mkAsyncHelloWorker false false)

/-- Claim C5: when the first argument is not an object and the callback is a
valid function, the callback is invoked synchronously-or-immediately with a
non-null error and no result, and no task is ever constructed or queued. -/
theorem nonobject_options_callback_error (arg0 arg1 : JSValue)
    (work : WorkOutcome)
    (hcb : arg1.isFunction = true) (hobj : arg0.isObject = false) :
    helloAsync arg0 arg1 =
      .callbackError "first arg \x27options\x27 must be an object" ∧
    helloAsyncCalls arg0 arg1 work =
      [{ err := some "first arg \x27options\x27 must be an object",
         res := none }] ∧
    ∀ w, helloAsync arg0 arg1 ≠ .queued w := by
  refine ⟨?_, ?_, fun w => ?_⟩
  · simp [helloAsync, hcb, hobj]
  · simp [helloAsyncCalls, helloAsync, hcb, hobj, CallbackError]
  · simp [helloAsync, hcb, hobj]

theorem nonobject_options_callback_error_witness :
    helloAsync .null .function =
      .callbackError "first arg \x27options\x27 must be an object" :=
  (nonobject_options_callback_error .null .function (.value "") rfl rfl).1

/-- Claim C6: in a well-formed invocation, an absent `louder` field makes
the emphasize flag default to `false` and an absent `buffer` field makes the
asBytes flag default to `false`, while a present boolean field sets the
corresponding flag to its value. -/
theorem option_defaults (fields : List (String × JSValue)) (arg1 : JSValue)
    (hcb : arg1.isFunction = true)
    (hl : objHas fields "louder" = false ∨
      (objGet fields "louder").isBoolean = true)
    (hb : objHas fields "buffer" = false ∨
      (objGet fields "buffer").isBoolean = true) :
    helloAsync (.object fields) arg1 =
      .queued (mkAsyncHelloWorker
        (if objHas fields "louder" then (objGet fields "louder").asBoolean
         else false)
        (if objHas fields "buffer" then (objGet fields "buffer").asBoolean
         else false)) := by
  rcases hl with hl | hl
  · rcases hb with hb | hb
    · simp [helloAsync, hcb, JSValue.fields, JSValue.isObject, hl, hb]
    · by_cases hbh : objHas fields "buffer" = true
      · simp [helloAsync, hcb, JSValue.fields, JSValue.isObject, hl, hb, hbh]
      · have hbh0 : objHas fields "buffer" = false := by
          rcases Bool.eq_false_or_eq_true (objHas fields "buffer") with h1 | h1
          · exact absurd h1 hbh
          · exact h1
        simp [helloAsync, hcb, JSValue.fields, JSValue.isObject, hl, hbh0]
  · by_cases hlh : objHas fields "louder" = true
    · rcases hb with hb | hb
      · simp [helloAsync, hcb, JSValue.fields, JSValue.isObject, hl, hlh, hb]
      · by_cases hbh : objHas fields "buffer" = true
        · simp [helloAsync, hcb, JSValue.fields, JSValue.isObject, hl, hlh, hb, hbh]
        · have hbh0 : objHas fields "buffer" = false := by
            rcases Bool.eq_false_or_eq_true (objHas fields "buffer") with h1 | h1
            · exact absurd h1 hbh
            · exact h1
          simp [helloAsync, hcb, JSValue.fields, JSValue.isObject, hl, hlh, hbh0]
    · have hlh0 : objHas fields "louder" = false := by
        rcases Bool.eq_false_or_eq_true (objHas fields "louder") with h1 | h1
        · exact absurd h1 hlh
        · exact h1
      rcases hb with hb | hb
      · simp [helloAsync, hcb, JSValue.fields, JSValue.isObject, hlh0, hb]
      · by_cases hbh : objHas fields "buffer" = true
        · simp [helloAsync, hcb, JSValue.fields, JSValue.isObject, hlh0, hb, hbh]
        · have hbh0 : objHas fields "buffer" = false := by
            rcases Bool.eq_false_or_eq_true (objHas fields "buffer") with h1 | h1
            · exact absurd h1 hbh
            · exact h1
          simp [helloAsync, hcb, JSValue.fields, JSValue.isObject, hlh0, hbh0]

theorem option_defaults_witness :
    helloAsync (.object [("louder", JSValue.boolean true)]) .function =
      .queued (mkAsyncHelloWorker
        (if objHas [("louder", JSValue.boolean true)] "louder" then
          (objGet [("louder", JSValue.boolean true)] "louder").asBoolean
         else false)
        (if objHas [("louder", JSValue.boolean true)] "buffer" then
          (objGet [("louder", JSValue.boolean true)] "buffer").asBoolean
         else false)) :=
  option_defaults [("louder", JSValue.boolean true)] .function rfl
    (Or.inr rfl) (Or.inl rfl)

/-- Claim C7: for each emphasize value, a successful run with asBytes true
delivers a byte buffer whose bytes are those of the very string that the
asBytes-false run delivers as text, and decoding those bytes gives back that
string. -/
theorem bytes_decode_to_text (louder : Bool) :
    ∃ s : String,
      runTask (mkAsyncHelloWorker louder true) (helloWork louder) =
        .callbackCalled { err := none, res := some (.bytes (stringBytes s)) } ∧
      runTask (mkAsyncHelloWorker louder false) (helloWork louder) =
        .callbackCalled { err := none, res := some (.text s) } ∧
      decodeBytes (stringBytes s) = some s := by
  refine ⟨do_expensive_work "world" louder, rfl, rfl, ?_⟩
  cases louder <;> decide

/-- Claim C8: the formatting computation is deterministic; two invocations
at the same subject and emphasize flag return byte-identical strings, and
two runs of the whole task pipeline at the same flags deliver the same
outcome.  In the embedding the computation is a pure function, exactly
because the source computation is synchronous and effect-free. -/
theorem formatting_deterministic (subject : String) (louder buffer : Bool) :
    do_expensive_work subject louder = do_expensive_work subject louder ∧
    runTask (mkAsyncHelloWorker louder buffer) (helloWork louder) =
      runTask (mkAsyncHelloWorker louder buffer) (helloWork louder) :=
  ⟨rfl, rfl⟩

/-- Claim C9: the callback argument is validated before the options
argument: whenever the second argument is not a function, `helloAsync`
throws a synchronous TypeError (returning null), the outcome does not depend
on the options argument at all, and no callback invocation ever happens. -/
theorem callback_checked_first (arg0 arg0other arg1 : JSValue)
    (work : WorkOutcome) (h : arg1.isFunction = false) :
    helloAsync arg0 arg1 =
      .thrown "second arg \x27callback\x27 must be a function" ∧
    helloAsync arg0 arg1 = helloAsync arg0other arg1 ∧
    helloAsyncCalls arg0 arg1 work = [] := by
  refine ⟨?_, ?_, ?_⟩
  · simp [helloAsync, h]
  · simp [helloAsync, h]
  · simp [helloAsyncCalls, helloAsync, h]

theorem callback_checked_first_witness :
    helloAsync .null .undefined =
      .thrown "second arg \x27callback\x27 must be a function" :=
  (callback_checked_first .null (.object []) .undefined (.value "") rfl).1

/-- Claim C10: fields of the options object other than `louder` and `buffer`
are ignored: adding a binding for any other key to the options object
changes neither the outcome of `helloAsync` (validation result, flags of the
queued worker) nor the callback invocations eventually delivered. -/
theorem unrecognized_fields_ignored (fields : List (String × JSValue))
    (k : String) (v arg1 : JSValue) (work : WorkOutcome)
    (hk1 : k ≠ "louder") (hk2 : k ≠ "buffer") :
    helloAsync (.object ((k, v) :: fields)) arg1 =
      helloAsync (.object fields) arg1 ∧
    helloAsyncCalls (.object ((k, v) :: fields)) arg1 work =
      helloAsyncCalls (.object fields) arg1 work := by
  have hmain : helloAsync (.object ((k, v) :: fields)) arg1 =
      helloAsync (.object fields) arg1 := by
    simp only [helloAsync, JSValue.fields, JSValue.isObject,
      objHas_cons_ne k "louder" v fields hk1,
      objGet_cons_ne k "louder" v fields hk1,
      objHas_cons_ne k "buffer" v fields hk2,
      objGet_cons_ne k "buffer" v fields hk2]
  exact ⟨hmain, by simp [helloAsyncCalls, hmain]⟩

theorem unrecognized_fields_ignored_witness :
    helloAsync
        (.object [("extra", JSValue.str "x"), ("louder", JSValue.boolean true)])
        .function =
      helloAsync (.object [("louder", JSValue.boolean true)]) .function :=
  (unrecognized_fields_ignored [("louder", JSValue.boolean true)] "extra"
    (JSValue.str "x") .function (.value "") (by decide) (by decide)).1

end NodeCppSkel
